import Mathlib

/-!
Shallow embedding of the order-paper question extractor of
`data mining/scrap.py` (function `extract_parliament_questions`), together
with proofs about its metadata scan, its question segmenter and its
result assembly.

Lines are modelled as Lean strings.  The character classes of the Python
regular expressions are modelled on their ASCII behaviour: `\d` as the
decimal digits and `\s` as the six ASCII whitespace characters.  The
regular-expression match `^(\d+)\s+(.+?)\s+-\s+to ask the (.+?):?$` is
modelled by an explicit backtracking matcher that mirrors the preference
order of the Python engine (greedy digit and whitespace runs, lazy groups,
optional trailing colon, end anchor also accepted before a final newline).
-/

/-- Newline character, written by code point to keep string literals plain. -/
def nlChar : Char := Char.ofNat 10

/-- Apostrophe character, written by code point. -/
def aposChar : Char := Char.ofNat 39

/-- Model of the Python regex class `\d` (ASCII decimal digits). -/
def isPyDigit (c : Char) : Bool := c.isDigit

/-- Model of the Python regex class `\s` and of `str.strip` whitespace
(ASCII behaviour: space, tab, newline, carriage return, vertical tab,
form feed). -/
def isPySpace (c : Char) : Bool :=
  c == ' ' || c == Char.ofNat 9 || c == nlChar || c == Char.ofNat 13 ||
  c == Char.ofNat 11 || c == Char.ofNat 12

/-- Strip leading and trailing whitespace from a character list
(model of Python `str.strip`). -/
def pyStripL (cs : List Char) : List Char :=
  ((cs.dropWhile isPySpace).reverse.dropWhile isPySpace).reverse

/-- Strip leading and trailing whitespace from a string. -/
def pyStrip (s : String) : String := ⟨pyStripL s.data⟩

/-- Does `needle` occur as a contiguous sublist of the second argument?
Model of the Python substring test `needle in hay`. -/
def subOcc (needle : List Char) : List Char → Bool
  | [] => needle.isEmpty
  | c :: t => needle.isPrefixOf (c :: t) || subOcc needle t

/-- Model of the Python substring test `needle in hay` on strings. -/
def strContains (hay needle : String) : Bool := subOcc needle.data hay.data

/-- Split a character list at every newline character
(model of Python `str.split` on a newline). -/
def splitNl : List Char → List (List Char)
  | [] => [[]]
  | c :: t =>
    match splitNl t with
    | [] => [[]]
    | g :: gs => if c == nlChar then [] :: g :: gs else (c :: g) :: gs

/-- Model of the line extractor: split the body text at newlines, strip
each piece, and keep the non-empty results. -/
def extractLines (text : String) : List String :=
  ((splitNl text.data).map pyStripL).filterMap
    (fun cs => if cs.isEmpty then none else some (⟨cs⟩ : String))

/-- The literal `to ask the ` (with trailing space) inside the header regex. -/
def toAskTheLit : List Char := ("to ask the ").data

/-- Accept the remainder that may follow the lazy minister group:
the optional colon of `:?` and the end anchor `$`, where `$` also matches
just before a final newline. -/
def endOk (rest : List Char) : Bool :=
  match rest with
  | [] => true
  | [c] => c == ':' || c == nlChar
  | [c, d] => c == ':' && d == nlChar
  | _ => false

/-- Lazy scan for the minister group `(.+?):?$`: accumulate characters
(none of which may be a newline) and stop at the first position whose
remainder is accepted by `endOk`. -/
def ministerScan (acc : List Char) (rest : List Char) : Option (List Char) :=
  match rest with
  | [] => none
  | c :: rs =>
    if c == nlChar then none
    else if endOk rs then some (acc ++ [c])
    else ministerScan (acc ++ [c]) rs

/-- Match `\s+-\s+to ask the (.+?):?$` against `r`, returning the minister
group.  The whitespace runs are forced: each must be non-empty and is
followed by a non-whitespace literal, so greedy matching is maximal-run
matching. -/
def matchAfterAsker (r : List Char) : Option (List Char) :=
  let s1 := r.takeWhile isPySpace
  if s1.isEmpty then none
  else
    match r.drop s1.length with
    | c :: r2 =>
      if c == '-' then
        let s2 := r2.takeWhile isPySpace
        if s2.isEmpty then none
        else
          let r3 := r2.drop s2.length
          if toAskTheLit.isPrefixOf r3 then
            ministerScan [] (r3.drop toAskTheLit.length)
          else none
      else none
    | [] => none

/-- Lazy scan for the asker group `(.+?)`: grow the group one non-newline
character at a time and return at the first position where the rest of the
pattern matches the remainder. -/
def findAsker (acc : List Char) (rest : List Char) : Option (List Char × List Char) :=
  match rest with
  | [] => none
  | c :: rs =>
    if c == nlChar then none
    else
      match matchAfterAsker rs with
      | some m => some (acc ++ [c], m)
      | none => findAsker (acc ++ [c]) rs

/-- Backtracking over the first `\s+` run: try the longest whitespace
prefix first and shorten it one character at a time, as the greedy Python
engine does. -/
def tryAskerFromW (rest : List Char) : Nat → Option (List Char × List Char)
  | 0 => none
  | k + 1 =>
    match findAsker [] (rest.drop (k + 1)) with
    | some r => some r
    | none => tryAskerFromW rest k

/-- Model of `re.match` for the new-question header pattern
`^(\d+)\s+(.+?)\s+-\s+to ask the (.+?):?$`, returning the three groups
(question number, asker, minister). -/
def matchHeader (line : String) : Option (String × String × String) :=
  let cs := line.data
  let ds := cs.takeWhile isPyDigit
  if ds.isEmpty then none
  else
    let rest := cs.drop ds.length
    let ws := rest.takeWhile isPySpace
    match tryAskerFromW rest ws.length with
    | some (a, m) => some (⟨ds⟩, ⟨a⟩, ⟨m⟩)
    | none => none

/-- Does a character list start with a parenthesised single letter, as in
the sub-part pattern `^\([a-z]\)`? -/
def subPartStart (cs : List Char) : Bool :=
  match cs with
  | a :: b :: c :: _ => a == '(' && decide ('a' ≤ b) && decide (b ≤ 'z') && c == ')'
  | _ => false

/-- Model of `re.match` for `^\([a-z]\)` applied to the lower-cased line. -/
def isSubPartLine (line : String) : Bool :=
  subPartStart (line.data.map Char.toLower)

/-- Section marker starting the questions section. -/
def qfoaMark : String := "QUESTIONS FOR ORAL ANSWER"

/-- Terminator marker: motions. -/
def motionsMark : String := "MOTIONS"

/-- Terminator marker: orders of the day. -/
def ordersMark : String := "ORDERS OF THE DAY"

/-- Terminator marker: the vice-presidential question time heading. -/
def vpMark : String :=
  ("HIS HONOUR THE VICE PRESIDENT") ++ String.mk [aposChar] ++ ("S QUESTION TIME")

/-- The guard substring of the header-continuation rule. -/
def toAskMark : String := "to ask the"

/-- Does the line contain one of the three section-terminating markers? -/
def isTerminatorLine (line : String) : Bool :=
  strContains line motionsMark || strContains line ordersMark || strContains line vpMark

/-- A parliamentary question record, as assembled by the segmenter. -/
structure Question where
  question_number : String
  asked_by : String
  minister : String
  section_ : Option String
  parts : List String
  question_text : Option String
deriving DecidableEq, Repr

/-- The mutable state of the segmentation loop. -/
structure SegState where
  questions : List Question
  current_question : Option Question
  in_questions_section : Bool
  current_section : Option String
deriving DecidableEq, Repr

/-- Append a continuation line onto the last element of the parts list
(model of `parts[-1] += " " + line`). -/
def updateLastPart (ps : List String) (line : String) : List String :=
  match ps with
  | [] => []
  | [p] => [p ++ (" ") ++ line]
  | p :: rest => p :: updateLastPart rest line

/-- One iteration of the line loop of `extract_parliament_questions`.
`none` models the `break` on a section-terminating line. -/
def stepLine (s : SegState) (line : String) : Option SegState :=
  if strContains line qfoaMark then
    some { s with in_questions_section := true, current_section := some line }
  else if isTerminatorLine line && s.in_questions_section then
    none
  else if s.in_questions_section then
    match matchHeader line with
    | some (num, asker, mini) =>
      some { s with
        questions := s.questions ++ s.current_question.toList,
        current_question := some (
          { question_number := num, asked_by := pyStrip asker,
            minister := pyStrip mini, section_ := s.current_section,
            parts := [], question_text := none }) }
    | none =>
      match s.current_question with
      | some q =>
        if isSubPartLine line then
          some { s with current_question := some { q with parts := q.parts ++ [line] } }
        else if !q.parts.isEmpty then
          some { s with current_question := some { q with parts := updateLastPart q.parts line } }
        else if strContains line toAskMark then
          some s
        else
          some { s with current_question := some (
            { q with question_text := some ((q.question_text.getD ("")) ++ (" ") ++ line) }) }
      | none => some s
  else
    some s

/-- Run the line loop, stopping at a `break`. -/
def processLines (s : SegState) : List String → SegState
  | [] => s
  | l :: ls =>
    match stepLine s l with
    | none => s
    | some s2 => processLines s2 ls

/-- Post-processing of one question: drop a whitespace-only
`question_text` accumulator. -/
def cleanupQuestion (q : Question) : Question :=
  match q.question_text with
  | some t => if (pyStrip t).isEmpty then { q with question_text := none } else q
  | none => q

/-- Flush the pending question at end of processing and post-process. -/
def finalizeState (s : SegState) : List Question :=
  (s.questions ++ s.current_question.toList).map cleanupQuestion

/-- The initial segmentation state. -/
def initState : SegState :=
  { questions := [], current_question := none,
    in_questions_section := false, current_section := none }

/-- The whole question segmenter: run the loop from the initial state and
finalize. -/
def segmentQuestions (lines : List String) : List Question :=
  finalizeState (processLines initState lines)

/-- Document-level metadata. -/
structure PaperMetadata where
  title : Option String
  source_url : String
  document_type : String
  parliament : Option String
  session : Option String
  date : Option String
  time : Option String
deriving DecidableEq, Repr

/-- The literal removed from date lines. -/
def opNeedle : List Char := ("ORDER PAPER - ").data

/-- Fuelled removal of every occurrence of `needle`
(model of Python `str.replace` with an empty replacement). -/
def removeAllAux (needle : List Char) : Nat → List Char → List Char
  | 0, hay => hay
  | _ + 1, [] => []
  | fuel + 1, c :: t =>
    if needle.isPrefixOf (c :: t) && !needle.isEmpty then
      removeAllAux needle fuel ((c :: t).drop needle.length)
    else
      c :: removeAllAux needle fuel t

/-- Remove every occurrence of `needle` from `hay`. -/
def removeAllSub (needle : List Char) (hay : List Char) : List Char :=
  removeAllAux needle hay.length hay

/-- Metadata condition: parliament line. -/
def mCond1 (l : String) : Bool := strContains l ("NATIONAL ASSEMBLY OF ZAMBIA")

/-- Metadata condition: session line. -/
def mCond2 (l : String) : Bool :=
  strContains l ("SESSION OF THE") && strContains l ("ASSEMBLY")

/-- Does the line contain a weekday name? -/
def hasWeekday (l : String) : Bool :=
  strContains l ("MONDAY") || strContains l ("TUESDAY") || strContains l ("WEDNESDAY") ||
  strContains l ("THURSDAY") || strContains l ("FRIDAY")

/-- Metadata condition: date line. -/
def mCond3 (l : String) : Bool := strContains l ("ORDER PAPER") && hasWeekday l

/-- Metadata condition: sitting-time line. -/
def mCond4 (l : String) : Bool := strContains l ("AT") && strContains l ("HOURS")

/-- The stored date value: the line with the order-paper prefix removed. -/
def dateValue (l : String) : String := ⟨removeAllSub opNeedle l.data⟩

/-- One iteration of the metadata scan (the if/elif chain of the source). -/
def metaStep (m : PaperMetadata) (l : String) : PaperMetadata :=
  if mCond1 l then { m with parliament := some l }
  else if mCond2 l then { m with session := some l }
  else if mCond3 l then { m with date := some (dateValue l) }
  else if mCond4 l then { m with time := some l }
  else m

/-- The metadata scan over the first 20 lines. -/
def scanMetadata (m : PaperMetadata) (lines : List String) : PaperMetadata :=
  (lines.take 20).foldl metaStep m

/-- The metadata value before the content scan. -/
def baseMetadata (t : Option String) (url : String) : PaperMetadata :=
  { title := t, source_url := url, document_type := "Order Paper",
    parliament := none, session := none, date := none, time := none }

/-- Outcome of the fetch-and-locate phase: a network or status failure,
or a page whose content container may be absent. -/
inductive FetchOutcome where
  | fetchError (msg : String)
  | page (pageTitle : Option String) (contentText : Option String)
deriving DecidableEq, Repr

/-- The result value of `extract_parliament_questions`. -/
inductive ExtractResult where
  | ok (metadata : PaperMetadata) (questions : List Question) (question_count : Nat)
  | err (message : String) (url : String)
deriving DecidableEq, Repr

/-- The status string of a result. -/
def ExtractResult.status : ExtractResult → String
  | .ok _ _ _ => "success"
  | .err _ _ => "error"

/-- The message of the raised error when the content container is absent. -/
def noDivMsg : String := "Could not find the main content div"

/-- Model of `extract_parliament_questions`: every failure of the fetch
phase, the missing content container, and any other modelled exception is
turned into the structured error result; otherwise the lines are
extracted, the metadata scanned, the questions segmented and the document
assembled with its question count. -/
def extract_parliament_questions (url : String) (fetch : FetchOutcome) : ExtractResult :=
  match fetch with
  | .fetchError msg => .err msg url
  | .page _ none => .err noDivMsg url
  | .page t (some body) =>
    let lines := extractLines body
    let qs := segmentQuestions lines
    .ok (scanMetadata (baseMetadata t url) lines) qs qs.length

/-- Does the fetch-and-locate phase fail? -/
def FetchOutcome.fails : FetchOutcome → Bool
  | .fetchError _ => true
  | .page _ none => true
  | .page _ (some _) => false

/-- The last element of a list satisfying `p`, if any.  Used to state the
last-match-wins behaviour of the metadata scan. -/
def lastSat (p : String → Bool) : List String → Option String
  | [] => none
  | l :: ls =>
    match lastSat p ls with
    | some x => some x
    | none => if p l then some l else none

/-- Effective guard of the session branch under the elif chain. -/
def effCond2 (l : String) : Bool := !mCond1 l && mCond2 l

/-- Effective guard of the date branch under the elif chain. -/
def effCond3 (l : String) : Bool := !mCond1 l && !mCond2 l && mCond3 l

/-- Effective guard of the time branch under the elif chain. -/
def effCond4 (l : String) : Bool := !mCond1 l && !mCond2 l && !mCond3 l && mCond4 l

/-- The example line sequence of the specification. -/
def c1Lines : List String :=
  [qfoaMark, "12 Mr Banda - to ask the Minister of Health:",
   "(a) What is the budget?", "continued here",
   "13 Mrs Phiri - to ask the Minister of Education", motionsMark]

/-- The first question actually produced on `c1Lines`. -/
def q12 : Question :=
  { question_number := "12", asked_by := "Mr Banda",
    minister := "Minister of Health", section_ := some qfoaMark,
    parts := ["(a) What is the budget? continued here"], question_text := none }

/-- The second question actually produced on `c1Lines`. -/
def q13 : Question :=
  { question_number := "13", asked_by := "Mrs Phiri",
    minister := "Minister of Education", section_ := some qfoaMark,
    parts := [], question_text := none }

/-- A pending question with no parts, used as a concrete open question. -/
def qPend : Question :=
  { question_number := "7", asked_by := "Mr K", minister := "Minister of W",
    section_ := some qfoaMark, parts := [], question_text := none }

/-- A concrete in-section state with an open question. -/
def openState : SegState :=
  { questions := [], current_question := some qPend,
    in_questions_section := true, current_section := some qfoaMark }

/-- A line sequence whose second line contains both the section marker and
a terminator marker. -/
def c2Lines : List String :=
  [qfoaMark, "QUESTIONS FOR ORAL ANSWER AND MOTIONS",
   "1 Mr Mwale - to ask the Minister of Sport"]

/-- A first parliament-metadata line. -/
def c5LineA : String := "NATIONAL ASSEMBLY OF ZAMBIA ONE"

/-- A second parliament-metadata line. -/
def c5LineB : String := "NATIONAL ASSEMBLY OF ZAMBIA TWO"

/-- A concrete question with a zero-padded number. -/
def c9Q : Question :=
  { question_number := "007", asked_by := "Mr Sata",
    minister := "Minister of Mines", section_ := some qfoaMark,
    parts := [], question_text := none }

/-- All parts of a question start, lower-cased, with a parenthesised
letter. -/
def partsOk (q : Question) : Prop := ∀ p ∈ q.parts, isSubPartLine p = true

/-- The per-question invariant: the question number is a non-empty digit
string and all parts are sub-part shaped. -/
def qInv (q : Question) : Prop :=
  (q.question_number.data ≠ [] ∧ q.question_number.data.all isPyDigit = true) ∧ partsOk q

/-- The segmentation-state invariant. -/
def sInv (s : SegState) : Prop :=
  (∀ q ∈ s.questions, qInv q) ∧ (∀ q, s.current_question = some q → qInv q)

theorem stepLine_out (s : SegState) (l : String)
    (hs : s.in_questions_section = false)
    (hl : strContains l qfoaMark = false) : stepLine s l = some s := by
  simp [stepLine, hl, hs]

theorem processLines_skip (pre : List String) : ∀ (s : SegState) (rest : List String),
    s.in_questions_section = false →
    (∀ l ∈ pre, strContains l qfoaMark = false) →
    processLines s (pre ++ rest) = processLines s rest := by
  induction pre with
  | nil => intro s rest _ _; rfl
  | cons l ls ih =>
    intro s rest hs h
    have h1 : stepLine s l = some s := stepLine_out s l hs (h l (by simp))
    calc processLines s ((l :: ls) ++ rest)
        = processLines s (ls ++ rest) := by simp [processLines, h1]
      _ = processLines s rest := ih s rest hs (fun x hx => h x (by simp [hx]))

theorem matchHeader_digits {line n a m : String}
    (h : matchHeader line = some (n, a, m)) :
    n.data ≠ [] ∧ n.data.all isPyDigit = true := by
  simp only [matchHeader] at h
  split at h
  · exact absurd h (by simp)
  · next hne =>
    split at h
    · next a' m' heq =>
      obtain ⟨h1, -, -⟩ := Prod.mk.injEq .. ▸ (Option.some.injEq .. ▸ h)
      subst h1
      refine ⟨by simpa using hne, ?_⟩
      exact List.all_eq_true.mpr (fun x hx => List.mem_takeWhile_imp hx)
    · exact absurd h (by simp)

theorem subPartStart_append {cs ys : List Char} (h : subPartStart cs = true) :
    subPartStart (cs ++ ys) = true := by
  match cs with
  | a :: b :: c :: r => simpa [subPartStart] using h
  | [] => simp [subPartStart] at h
  | [a] => simp [subPartStart] at h
  | [a, b] => simp [subPartStart] at h

theorem isSubPartLine_extend {p l : String} (h : isSubPartLine p = true) :
    isSubPartLine (p ++ (" ") ++ l) = true := by
  unfold isSubPartLine at h ⊢
  have hd : (p ++ (" ") ++ l).data = p.data ++ ((" ") ++ l : String).data := by
    simp [String.data_append]
  rw [hd, List.map_append]
  exact subPartStart_append h

theorem updateLastPart_ok {l : String} : ∀ {ps : List String},
    (∀ p ∈ ps, isSubPartLine p = true) →
    ∀ p ∈ updateLastPart ps l, isSubPartLine p = true := by
  intro ps
  induction ps with
  | nil => intro _ p hp; simp [updateLastPart] at hp
  | cons a t ih =>
    intro h p hp
    cases t with
    | nil =>
      simp [updateLastPart] at hp
      subst hp
      exact isSubPartLine_extend (h a (by simp))
    | cons b t2 =>
      rw [show updateLastPart (a :: b :: t2) l = a :: updateLastPart (b :: t2) l from rfl] at hp
      rcases List.mem_cons.mp hp with h1 | h1
      · subst h1; exact h p (by simp)
      · exact ih (fun x hx => h x (List.mem_cons_of_mem a hx)) p h1

theorem stepLine_inv {s : SegState} {l : String} {s2 : SegState}
    (h : stepLine s l = some s2) (hinv : sInv s) : sInv s2 := by
  unfold stepLine at h
  split at h
  · cases h; exact hinv
  · split at h
    · exact Option.noConfusion h
    · split at h
      · split at h
        · next num asker mini heq =>
          cases h
          constructor
          · intro q hq
            rcases List.mem_append.mp hq with h1 | h1
            · exact hinv.1 q h1
            · cases hc : s.current_question with
              | none => rw [hc] at h1; simp at h1
              | some qq =>
                rw [hc] at h1; simp at h1; subst h1
                exact hinv.2 _ hc
          · intro q hq
            have hqe := Option.some.injEq .. ▸ hq
            subst hqe
            refine ⟨matchHeader_digits heq, ?_⟩
            intro p hp; simp at hp
        · split at h
          · next q hcur =>
            have hq : qInv q := hinv.2 q hcur
            split at h
            · next hsub =>
              cases h
              refine ⟨hinv.1, ?_⟩
              intro q2 hq2
              have hqe := Option.some.injEq .. ▸ hq2
              subst hqe
              refine ⟨hq.1, ?_⟩
              intro p hp
              rcases List.mem_append.mp hp with h1 | h1
              · exact hq.2 p h1
              · simp at h1; subst h1; exact hsub
            · split at h
              · cases h
                refine ⟨hinv.1, ?_⟩
                intro q2 hq2
                have hqe := Option.some.injEq .. ▸ hq2
                subst hqe
                exact ⟨hq.1, updateLastPart_ok hq.2⟩
              · split at h
                · cases h; exact hinv
                · cases h
                  refine ⟨hinv.1, ?_⟩
                  intro q2 hq2
                  have hqe := Option.some.injEq .. ▸ hq2
                  subst hqe
                  exact ⟨hq.1, hq.2⟩
          · cases h; exact hinv
      · cases h; exact hinv

theorem processLines_inv : ∀ (ls : List String) (s : SegState),
    sInv s → sInv (processLines s ls) := by
  intro ls
  induction ls with
  | nil => intro s h; exact h
  | cons l t ih =>
    intro s h
    cases heq : stepLine s l with
    | none => simpa [processLines, heq] using h
    | some s2 =>
      have : processLines s (l :: t) = processLines s2 t := by
        simp [processLines, heq]
      rw [this]
      exact ih s2 (stepLine_inv heq h)

theorem finalizeState_inv {s : SegState} (h : sInv s) :
    ∀ q ∈ finalizeState s, qInv q := by
  intro q hq
  unfold finalizeState at hq
  rw [List.mem_map] at hq
  obtain ⟨q0, hq0, rfl⟩ := hq
  have h0 : qInv q0 := by
    rcases List.mem_append.mp hq0 with h1 | h1
    · exact h.1 q0 h1
    · cases hc : s.current_question with
      | none => rw [hc] at h1; simp at h1
      | some qq => rw [hc] at h1; simp at h1; subst h1; exact h.2 _ hc
  unfold cleanupQuestion
  split
  · split
    · exact ⟨h0.1, h0.2⟩
    · exact h0
  · exact h0

theorem segmentQuestions_inv (lines : List String) (q : Question)
    (hq : q ∈ segmentQuestions lines) : qInv q := by
  have h0 : sInv initState := by
    constructor
    · intro q hq; simp [initState] at hq
    · intro q hq; simp [initState] at hq
  exact finalizeState_inv (processLines_inv lines initState h0) q hq

theorem metaStep_parliament (m : PaperMetadata) (l : String) :
    (metaStep m l).parliament = if mCond1 l then some l else m.parliament := by
  simp only [metaStep]
  split_ifs <;> rfl

theorem metaStep_session (m : PaperMetadata) (l : String) :
    (metaStep m l).session = if effCond2 l then some l else m.session := by
  simp only [metaStep, effCond2]
  split_ifs <;> simp_all

theorem metaStep_date (m : PaperMetadata) (l : String) :
    (metaStep m l).date = if effCond3 l then some (dateValue l) else m.date := by
  simp only [metaStep, effCond3]
  split_ifs <;> simp_all

theorem metaStep_time (m : PaperMetadata) (l : String) :
    (metaStep m l).time = if effCond4 l then some l else m.time := by
  simp only [metaStep, effCond4]
  split_ifs <;> simp_all

theorem foldl_metaField (g : PaperMetadata → Option String) (p : String → Bool)
    (f : String → String)
    (hstep : ∀ m l, g (metaStep m l) = if p l then some (f l) else g m) :
    ∀ (ls : List String) (m : PaperMetadata),
      g (ls.foldl metaStep m) =
        (match lastSat p ls with
         | some x => some (f x)
         | none => g m) := by
  intro ls
  induction ls with
  | nil => intro m; rfl
  | cons l t ih =>
    intro m
    rw [List.foldl_cons, ih]
    cases hls : lastSat p t with
    | some x => simp [lastSat, hls]
    | none =>
      simp only [lastSat, hls, hstep m l]
      cases hpl : p l <;> simp

/-- Claim C1, counterexample.  On the specification example input the
segmenter emits ministers with the full captured group after the literal
`to ask the `, namely `Minister of Health` and `Minister of Education`,
not the bare `Health` and `Education` of the claim. -/
theorem c1_claim_false :
    (segmentQuestions c1Lines).map Question.minister =
      ["Minister of Health", "Minister of Education"] ∧
    ("Minister of Health" : String) ≠ "Health" ∧
    ("Minister of Education" : String) ≠ "Education" := by
  decide

/-- Claim C1, amended.  On the example input the segmenter yields exactly
two questions: number 12 asked by Mr Banda of the Minister of Health with
the single merged part, and number 13 asked by Mrs Phiri of the Minister
of Education with no parts; and lines after the MOTIONS line are never
processed, so appending a further header line leaves the result
unchanged. -/
theorem c1_example_corrected :
    segmentQuestions c1Lines = [q12, q13] ∧
    segmentQuestions (c1Lines ++ ["14 Mr Zulu - to ask the Minister of Lands"]) =
      [q12, q13] := by
  decide

/-- Claim C2, counterexample.  While the segmenter is in the questions
section, a line containing MOTIONS does not end segmentation when it also
contains the section marker QUESTIONS FOR ORAL ANSWER: the section check
runs first and continues the loop, so a later line still produces a
question. -/
theorem c2_claim_false :
    strContains ("QUESTIONS FOR ORAL ANSWER AND MOTIONS") motionsMark = true ∧
    (processLines initState [qfoaMark]).in_questions_section = true ∧
    (segmentQuestions c2Lines).length = 1 := by
  decide

/-- Claim C2, amended.  While in the questions section, a line containing
one of the three terminator markers and not containing the section marker
ends segmentation: the loop stops with the state unchanged, no later line
is processed, and the pending current question (if any) is flushed by
finalization. -/
theorem c2_terminator_halts (s : SegState) (line : String) (rest : List String)
    (hin : s.in_questions_section = true)
    (hterm : isTerminatorLine line = true)
    (hq : strContains line qfoaMark = false) :
    processLines s (line :: rest) = s ∧
    finalizeState (processLines s (line :: rest)) =
      (s.questions ++ s.current_question.toList).map cleanupQuestion := by
  have hstep : stepLine s line = none := by
    simp [stepLine, hq, hterm, hin]
  have h1 : processLines s (line :: rest) = s := by
    simp [processLines, hstep]
  exact ⟨h1, by rw [h1]; rfl⟩

/-- Witness for the amended claim C2 at a concrete in-section state with
an open question and a concrete header line after the MOTIONS line. -/
theorem c2_terminator_halts_witness :
    processLines openState ([motionsMark, "9 Mr L - to ask the Minister of X"]) = openState ∧
    finalizeState (processLines openState ([motionsMark, "9 Mr L - to ask the Minister of X"])) =
      (openState.questions ++ openState.current_question.toList).map cleanupQuestion :=
  c2_terminator_halts openState motionsMark ["9 Mr L - to ask the Minister of X"]
    (by decide) (by decide) (by decide)

/-- Claim C3.  While the segmenter is in the questions section, a line
that matches the new-question header pattern and triggers no section
transition always starts a new question: the open question, if any, is
flushed to the end of the questions list even when its parts are still
empty, and the new current question starts with empty parts. -/
theorem c3_header_flushes (s : SegState) (line : String) (n a m : String)
    (hin : s.in_questions_section = true)
    (hq : strContains line qfoaMark = false)
    (ht : isTerminatorLine line = false)
    (hm : matchHeader line = some (n, a, m)) :
    stepLine s line = some { s with
      questions := s.questions ++ s.current_question.toList,
      current_question := some (
        { question_number := n, asked_by := pyStrip a, minister := pyStrip m,
          section_ := s.current_section, parts := [], question_text := none }) } := by
  simp [stepLine, hq, ht, hin, hm]

/-- Witness for claim C3 at a concrete state with an open question having
empty parts and the concrete header line of the specification example. -/
theorem c3_header_flushes_witness :
    stepLine openState ("12 Mr Banda - to ask the Minister of Health:") = some { openState with
      questions := openState.questions ++ openState.current_question.toList,
      current_question := some (
        { question_number := "12", asked_by := pyStrip ("Mr Banda"),
          minister := pyStrip ("Minister of Health"),
          section_ := openState.current_section, parts := [], question_text := none }) } :=
  c3_header_flushes openState ("12 Mr Banda - to ask the Minister of Health:")
    ("12") ("Mr Banda") ("Minister of Health")
    (by decide) (by decide) (by decide) (by decide)

/-- Claim C4.  Lines ordered before the first line containing QUESTIONS
FOR ORAL ANSWER are never classified: processing them leaves the initial
state untouched, and the questions produced from the whole sequence equal
the questions produced from the remaining suffix alone. -/
theorem c4_prefix_ignored (pre rest : List String)
    (h : ∀ l ∈ pre, strContains l qfoaMark = false) :
    processLines initState pre = initState ∧
    segmentQuestions (pre ++ rest) = segmentQuestions rest := by
  constructor
  · have := processLines_skip pre initState [] rfl h
    rwa [List.append_nil] at this
  · unfold segmentQuestions
    rw [processLines_skip pre initState rest rfl h]

/-- Witness for claim C4: a prefix with a terminator line, a header-shaped
line and a sub-part line, none containing the section marker, contributes
nothing. -/
theorem c4_prefix_ignored_witness :
    processLines initState ["ORDERS OF THE DAY", "12 Mr X - to ask the Minister of Y", "(a) part"] = initState ∧
    segmentQuestions (["ORDERS OF THE DAY", "12 Mr X - to ask the Minister of Y", "(a) part"] ++
        [qfoaMark, "5 Mr Q - to ask the Minister of Z"]) =
      segmentQuestions [qfoaMark, "5 Mr Q - to ask the Minister of Z"] :=
  c4_prefix_ignored ["ORDERS OF THE DAY", "12 Mr X - to ask the Minister of Y", "(a) part"]
    [qfoaMark, "5 Mr Q - to ask the Minister of Z"] (by decide)

/-- Claim C5, counterexample.  Two lines in the 20-line prefix both
containing the parliament phrase: the scan stores the second line, so a
field set by the first matching line is overwritten by a later matching
line. -/
theorem c5_claim_false :
    mCond1 c5LineA = true ∧ mCond1 c5LineB = true ∧ c5LineB ≠ c5LineA ∧
    (scanMetadata (baseMetadata none ("u")) [c5LineA, c5LineB]).parliament = some c5LineB := by
  decide

/-- Claim C5, amended.  In the metadata scan over the first 20 lines each
field holds the last matching line (under the elif priority of the four
conditions), with the date transformed by removing the order-paper
prefix; absence of a match leaves the field unset. -/
theorem c5_last_match_wins (md : PaperMetadata) (lines : List String)
    (hp : md.parliament = none) (hs : md.session = none)
    (hd : md.date = none) (ht : md.time = none) :
    (scanMetadata md lines).parliament = lastSat mCond1 (lines.take 20) ∧
    (scanMetadata md lines).session = lastSat effCond2 (lines.take 20) ∧
    (scanMetadata md lines).date = (lastSat effCond3 (lines.take 20)).map dateValue ∧
    (scanMetadata md lines).time = lastSat effCond4 (lines.take 20) := by
  refine ⟨?_, ?_, ?_, ?_⟩
  · rw [scanMetadata, foldl_metaField (fun m => m.parliament) mCond1 id metaStep_parliament, hp]
    cases lastSat mCond1 (lines.take 20) <;> rfl
  · rw [scanMetadata, foldl_metaField (fun m => m.session) effCond2 id metaStep_session, hs]
    cases lastSat effCond2 (lines.take 20) <;> rfl
  · rw [scanMetadata, foldl_metaField (fun m => m.date) effCond3 dateValue metaStep_date, hd]
    cases lastSat effCond3 (lines.take 20) <;> rfl
  · rw [scanMetadata, foldl_metaField (fun m => m.time) effCond4 id metaStep_time, ht]
    cases lastSat effCond4 (lines.take 20) <;> rfl

/-- Witness for the amended claim C5 at a concrete input with two
parliament lines, one date line and no time line. -/
theorem c5_last_match_wins_witness :
    (scanMetadata (baseMetadata none ("u")) [c5LineA, c5LineB, "ORDER PAPER - MONDAY"]).parliament =
      lastSat mCond1 ([c5LineA, c5LineB, "ORDER PAPER - MONDAY"].take 20) ∧
    (scanMetadata (baseMetadata none ("u")) [c5LineA, c5LineB, "ORDER PAPER - MONDAY"]).session =
      lastSat effCond2 ([c5LineA, c5LineB, "ORDER PAPER - MONDAY"].take 20) ∧
    (scanMetadata (baseMetadata none ("u")) [c5LineA, c5LineB, "ORDER PAPER - MONDAY"]).date =
      (lastSat effCond3 ([c5LineA, c5LineB, "ORDER PAPER - MONDAY"].take 20)).map dateValue ∧
    (scanMetadata (baseMetadata none ("u")) [c5LineA, c5LineB, "ORDER PAPER - MONDAY"]).time =
      lastSat effCond4 ([c5LineA, c5LineB, "ORDER PAPER - MONDAY"].take 20) :=
  c5_last_match_wins (baseMetadata none ("u")) [c5LineA, c5LineB, "ORDER PAPER - MONDAY"]
    (by decide) (by decide) (by decide) (by decide)

/-- Claim C6.  The extraction is total over the modelled outcomes (its
result is always the success or the error shape, never an escaped
exception), and whenever the fetch phase fails or the content container
is absent it returns the structured error result carrying a message and
the requested URL. -/
theorem c6_error_result (url : String) (fetch : FetchOutcome) :
    ((extract_parliament_questions url fetch).status = "success" ∨
     (extract_parliament_questions url fetch).status = "error") ∧
    (fetch.fails = true →
      ∃ msg, extract_parliament_questions url fetch = .err msg url) := by
  cases fetch with
  | fetchError msg => exact ⟨Or.inr rfl, fun _ => ⟨msg, rfl⟩⟩
  | page t body =>
    cases body with
    | none => exact ⟨Or.inr rfl, fun _ => ⟨noDivMsg, rfl⟩⟩
    | some b =>
      refine ⟨Or.inl rfl, fun h => ?_⟩
      simp [FetchOutcome.fails] at h

/-- Witness for claim C6 at a concrete failed fetch. -/
theorem c6_error_result_witness :
    ∃ msg, extract_parliament_questions ("u") (.fetchError ("connection refused")) =
      .err msg ("u") :=
  (c6_error_result ("u") (.fetchError ("connection refused"))).2 (by decide)

/-- Claim C7.  A document whose extracted line sequence never contains the
section marker yields the success result with an empty questions sequence
and count zero. -/
theorem c7_no_section_success (url : String) (t : Option String) (body : String)
    (h : ∀ l ∈ extractLines body, strContains l qfoaMark = false) :
    extract_parliament_questions url (.page t (some body)) =
      .ok (scanMetadata (baseMetadata t url) (extractLines body)) [] 0 ∧
    (extract_parliament_questions url (.page t (some body))).status = "success" := by
  have hseg : segmentQuestions (extractLines body) = [] := by
    unfold segmentQuestions
    have h2 := processLines_skip (extractLines body) initState [] rfl h
    rw [List.append_nil] at h2
    rw [h2]
    rfl
  constructor
  · simp [extract_parliament_questions, hseg]
  · simp [extract_parliament_questions, ExtractResult.status]

/-- Witness for claim C7 at a concrete body whose lines contain no
section marker. -/
theorem c7_no_section_success_witness :
    extract_parliament_questions ("u") (.page none (some ("NOTICE OF MOTION"))) =
      .ok (scanMetadata (baseMetadata none ("u")) (extractLines ("NOTICE OF MOTION"))) [] 0 ∧
    (extract_parliament_questions ("u") (.page none (some ("NOTICE OF MOTION")))).status =
      "success" :=
  c7_no_section_success ("u") none ("NOTICE OF MOTION") (by decide)

/-- Claim C8.  Every successful result carries a question count equal to
the length of its questions sequence. -/
theorem c8_count_length (url : String) (fetch : FetchOutcome)
    (md : PaperMetadata) (qs : List Question) (n : Nat)
    (h : extract_parliament_questions url fetch = .ok md qs n) : n = qs.length := by
  cases fetch with
  | fetchError msg => exact ExtractResult.noConfusion h
  | page t body =>
    cases body with
    | none => exact ExtractResult.noConfusion h
    | some b =>
      simp only [extract_parliament_questions] at h
      obtain ⟨-, h2, h3⟩ := ExtractResult.ok.injEq .. ▸ h
      rw [← h2, ← h3]

/-- Witness for claim C8 at a concrete successful extraction of an empty
body. -/
theorem c8_count_length_witness : (0 : Nat) = ([] : List Question).length :=
  c8_count_length ("u") (.page none (some (""))) (baseMetadata none ("u")) [] 0 (by decide)

/-- Claim C9, counterexample.  No input line sequence can make the
segmenter emit a question whose number is not a digit string: the header
pattern only captures a non-empty run of digits, so the claimed malformed
non-numeric question number is impossible. -/
theorem c9_claim_false :
    ¬ ∃ (lines : List String) (q : Question), q ∈ segmentQuestions lines ∧
      (q.question_number.data.all isPyDigit = false ∨ q.question_number = "") := by
  rintro ⟨lines, q, hq, hbad⟩
  have h := segmentQuestions_inv lines q hq
  rcases hbad with h1 | h1
  · rw [h.1.2] at h1
    exact Bool.noConfusion h1
  · exact h.1.1 (by rw [h1])

/-- Claim C9, amended.  Every emitted question number is a non-empty
string of digits; the segmenter performs no further validation of the
captured fields. -/
theorem c9_digits_only (lines : List String) (q : Question)
    (hq : q ∈ segmentQuestions lines) :
    q.question_number ≠ "" ∧ q.question_number.data.all isPyDigit = true := by
  have h := segmentQuestions_inv lines q hq
  refine ⟨?_, h.1.2⟩
  intro he
  exact h.1.1 (by rw [he])

/-- Witness for the amended claim C9 at a concrete input with a
zero-padded question number. -/
theorem c9_digits_only_witness :
    c9Q.question_number ≠ "" ∧ c9Q.question_number.data.all isPyDigit = true :=
  c9_digits_only [qfoaMark, "007 Mr Sata - to ask the Minister of Mines"] c9Q (by decide)

/-- Claim C10.  Every element of the parts sequence of every emitted
question begins, after lower-casing, with a parenthesised single
lower-case letter: parts only gain elements from sub-part lines and
continuation lines only extend the last existing element. -/
theorem c10_parts_subpart (lines : List String) (q : Question) (p : String)
    (hq : q ∈ segmentQuestions lines) (hp : p ∈ q.parts) :
    isSubPartLine p = true :=
  (segmentQuestions_inv lines q hq).2 p hp

/-- Witness for claim C10 at the merged part of the specification
example. -/
theorem c10_parts_subpart_witness :
    isSubPartLine ("(a) What is the budget? continued here") = true :=
  c10_parts_subpart c1Lines q12 ("(a) What is the budget? continued here")
    (by decide) (by decide)
